import Mathlib

/-!
Verification of the Path Tiles generator.

This file gives a shallow embedding of the two source files of the
repository and settles the specification claims against it.

Part I embeds `generate_matchings` from generate_path_tiles.py:

    def generate_matchings(points):
        if not points:
            yield []
            return
        first = points[0]
        for i in range(1, len(points)):
            second = points[i]
            pair = (first, second)
            rest = points[1:i] + points[i + 1 :]
            for matching in generate_matchings(rest):
                yield [pair] + matching

Part II embeds the pure, matching-dependent fragments of
`create_tile_mesh` from create_tile_mesh.py: the endpoint layout, the
quadratic Bezier channel curves (over ℚ; the Python floats only ever
perform field operations here), the endpoint-dot counting check, and the
two-engine boolean-carve fallback, with the external geometry engines
abstracted as oracles exactly at their call sites.
-/

namespace PathTiles

/-- All ways of selecting one element from a list, returning the selected
element together with the remaining elements in their original order.
`picks [a, b, c] = [(a, [b, c]), (b, [a, c]), (c, [a, b])]`.  This is the
loop `for i in range(1, len(points))` of `generate_matchings`: selecting
`points[i]` leaves `points[1:i] + points[i+1:]`. -/
def picks {α : Type} : List α → List (α × List α)
  | [] => []
  | x :: xs => (x, xs) :: (picks xs).map (fun p => (p.1, x :: p.2))

/-- Fuel-indexed recursion underlying `generate_matchings`; the fuel only
serves to make the recursion structural, and `genAux_fuel_irrelevant`
below shows any fuel at least the list length computes the same result. -/
def genAux {α : Type} : Nat → List α → List (List (α × α))
  | _, [] => [[]]
  | 0, _ :: _ => []
  | fuel + 1, first :: rest =>
    (picks rest).flatMap (fun s => (genAux fuel s.2).map (fun m => (first, s.1) :: m))

/-- Embedding of `generate_matchings(points)`: the list of all matchings
the Python generator yields, in yield order. -/
def generate_matchings {α : Type} (points : List α) : List (List (α × α)) :=
  genAux points.length points

theorem picks_length {α : Type} : ∀ l : List α, (picks l).length = l.length := by
  intro l
  induction l with
  | nil => rfl
  | cons x xs ih => simp [picks, ih]

theorem picks_mem_snd_length {α : Type} :
    ∀ {l : List α} {s : α × List α}, s ∈ picks l → s.2.length + 1 = l.length := by
  intro l
  induction l with
  | nil => intro s h; simp [picks] at h
  | cons x xs ih =>
    intro s h
    simp only [picks, List.mem_cons, List.mem_map] at h
    rcases h with h | ⟨p, hp, hps⟩
    · subst h; rfl
    · have := ih hp
      subst hps
      simp only [List.length_cons]
      omega

theorem genAux_nil {α : Type} (fuel : Nat) : genAux fuel ([] : List α) = [[]] := by
  cases fuel <;> rfl

theorem flatMap_congr_mem {β γ : Type} {L : List β} {F G : β → List γ}
    (h : ∀ s ∈ L, F s = G s) : L.flatMap F = L.flatMap G := by
  induction L with
  | nil => rfl
  | cons a L ih =>
    simp only [List.flatMap_cons]
    rw [h a (List.mem_cons_self a L), ih (fun s hs => h s (List.mem_cons_of_mem a hs))]

theorem genAux_eq_of_le {α : Type} :
    ∀ (n fuel : Nat) (l : List α), l.length ≤ n → l.length ≤ fuel →
      genAux fuel l = genAux l.length l := by
  intro n
  induction n with
  | zero =>
    intro fuel l hn _
    cases l with
    | nil => rw [genAux_nil, genAux_nil]
    | cons x xs => simp at hn
  | succ n ih =>
    intro fuel l hn hfuel
    cases l with
    | nil => rw [genAux_nil, genAux_nil]
    | cons x xs =>
      cases fuel with
      | zero => simp at hfuel
      | succ f =>
        simp only [List.length_cons] at hn hfuel ⊢
        simp only [genAux]
        apply flatMap_congr_mem
        intro s hs
        have hlen : s.2.length + 1 = xs.length := picks_mem_snd_length hs
        rw [ih f s.2 (by omega) (by omega), ih xs.length s.2 (by omega) (by omega)]

theorem genAux_fuel_irrelevant {α : Type} (fuel : Nat) (l : List α)
    (h : l.length ≤ fuel) : genAux fuel l = genAux l.length l :=
  genAux_eq_of_le l.length fuel l le_rfl h

/-- The recursion of the Python generator, as an equation on the embedding:
on a nonempty list, pair the head with each later element in turn and
prepend the pair to every matching of the remainder. -/
theorem generate_matchings_cons {α : Type} (first : α) (rest : List α) :
    generate_matchings (first :: rest) =
      (picks rest).flatMap
        (fun s => (generate_matchings s.2).map (fun m => (first, s.1) :: m)) := by
  rw [generate_matchings, List.length_cons]
  simp only [genAux]
  apply flatMap_congr_mem
  intro s hs
  have hlen : s.2.length + 1 = rest.length := picks_mem_snd_length hs
  rw [generate_matchings, genAux_fuel_irrelevant rest.length s.2 (by omega)]

theorem generate_matchings_nil {α : Type} : generate_matchings ([] : List α) = [[]] := rfl

/-- Number of matchings the enumerator produces on an input of given
length: 1 on the empty list, 0 on singletons, and `(n+1) * matchCount n`
on length `n + 2`. -/
def matchCount : Nat → Nat
  | 0 => 1
  | 1 => 0
  | n + 2 => (n + 1) * matchCount n

/-- The double factorial `n!! = n * (n-2) * (n-4) * ...`. -/
def doubleFactorial : Nat → Nat
  | 0 => 1
  | 1 => 1
  | n + 2 => (n + 2) * doubleFactorial n

theorem flatMap_length_const {β γ : Type} (F : β → List γ) (c : Nat) :
    ∀ L : List β, (∀ s ∈ L, (F s).length = c) → (L.flatMap F).length = L.length * c := by
  intro L
  induction L with
  | nil => intro _; simp
  | cons a L ih =>
    intro h
    simp only [List.flatMap_cons, List.length_append, List.length_cons]
    rw [h a (List.mem_cons_self a L), ih (fun s hs => h s (List.mem_cons_of_mem a hs))]
    ring

theorem genAux_length {α : Type} :
    ∀ fuel (l : List α), l.length ≤ fuel → (genAux fuel l).length = matchCount l.length := by
  intro fuel
  induction fuel with
  | zero =>
    intro l hl
    cases l with
    | nil => rfl
    | cons x xs => simp at hl
  | succ f ih =>
    intro l hl
    cases l with
    | nil => rfl
    | cons x xs =>
      cases xs with
      | nil => rfl
      | cons y ys =>
        simp only [genAux]
        rw [flatMap_length_const _ (matchCount ys.length)]
        · rw [picks_length]
          simp only [List.length_cons]
          rfl
        · intro s hs
          have hlen : s.2.length + 1 = (y :: ys).length := picks_mem_snd_length hs
          simp only [List.length_cons] at hlen hl
          rw [List.length_map, ih s.2 (by omega)]
          have : s.2.length = ys.length := by omega
          rw [this]

theorem generate_matchings_length {α : Type} (l : List α) :
    (generate_matchings l).length = matchCount l.length :=
  genAux_length l.length l le_rfl

theorem matchCount_even : ∀ n : Nat, matchCount (2 * n) = doubleFactorial (2 * n - 1) := by
  intro n
  induction n with
  | zero => rfl
  | succ k ih =>
    have h1 : 2 * (k + 1) = 2 * k + 2 := by ring
    rw [h1, matchCount, ih]
    cases k with
    | zero => rfl
    | succ m =>
      have h2 : 2 * (m + 1) - 1 = 2 * m + 1 := by omega
      have h3 : 2 * (m + 1) + 2 - 1 = 2 * m + 1 + 2 := by omega
      rw [h2, h3, doubleFactorial]
      have h4 : 2 * m + 1 + 2 = 2 * (m + 1) + 1 := by omega
      rw [h4]

theorem matchCount_odd : ∀ n : Nat, matchCount (2 * n + 1) = 0 := by
  intro n
  induction n with
  | zero => rfl
  | succ k ih =>
    have h1 : 2 * (k + 1) + 1 = (2 * k + 1) + 2 := by ring
    rw [h1, matchCount, ih, Nat.mul_zero]

theorem matchings_of_odd_length {α : Type} (l : List α) (h : Odd l.length) :
    generate_matchings l = [] := by
  obtain ⟨k, hk⟩ := h
  have := generate_matchings_length l
  rw [hk] at this
  have h0 : matchCount (2 * k + 1) = 0 := matchCount_odd k
  rw [h0] at this
  exact List.length_eq_zero.mp this

theorem picks_mem_fst {α : Type} :
    ∀ {l : List α} {s : α × List α}, s ∈ picks l → s.1 ∈ l := by
  intro l
  induction l with
  | nil => intro s h; simp [picks] at h
  | cons x xs ih =>
    intro s h
    simp only [picks, List.mem_cons, List.mem_map] at h
    rcases h with h | ⟨p, hp, hps⟩
    · subst h; exact List.mem_cons_self x xs
    · have h1 : p.1 ∈ xs := ih hp
      subst hps
      exact List.mem_cons_of_mem x h1

theorem picks_mem_snd_sublist {α : Type} :
    ∀ {l : List α} {s : α × List α}, s ∈ picks l → s.2.Sublist l := by
  intro l
  induction l with
  | nil => intro s h; simp [picks] at h
  | cons x xs ih =>
    intro s h
    simp only [picks, List.mem_cons, List.mem_map] at h
    rcases h with h | ⟨p, hp, hps⟩
    · subst h; exact List.sublist_cons_self x xs
    · have h1 : p.2.Sublist xs := ih hp
      subst hps
      exact List.Sublist.cons₂ x h1

theorem genAux_mem_mem {α : Type} :
    ∀ (fuel : Nat) (l : List α), ∀ m ∈ genAux fuel l, ∀ p ∈ m, p.1 ∈ l ∧ p.2 ∈ l := by
  intro fuel
  induction fuel with
  | zero =>
    intro l m hm p hp
    cases l with
    | nil => simp [genAux] at hm; subst hm; simp at hp
    | cons x xs => simp [genAux] at hm
  | succ f ih =>
    intro l m hm p hp
    cases l with
    | nil => simp [genAux] at hm; subst hm; simp at hp
    | cons x xs =>
      simp only [genAux, List.mem_flatMap, List.mem_map] at hm
      obtain ⟨s, hs, m', hm', rfl⟩ := hm
      have hsub := (picks_mem_snd_sublist hs).subset
      rcases List.mem_cons.mp hp with h | h
      · subst h
        exact ⟨List.mem_cons_self x xs, List.mem_cons_of_mem x (picks_mem_fst hs)⟩
      · have := ih s.2 m' hm' p h
        exact ⟨List.mem_cons_of_mem x (hsub this.1), List.mem_cons_of_mem x (hsub this.2)⟩

theorem genAux_pairwise {α : Type} {R : α → α → Prop} :
    ∀ (fuel : Nat) (l : List α), l.Pairwise R →
      ∀ m ∈ genAux fuel l, (∀ p ∈ m, R p.1 p.2) ∧ (m.map Prod.fst).Pairwise R := by
  intro fuel
  induction fuel with
  | zero =>
    intro l hR m hm
    cases l with
    | nil =>
      simp [genAux] at hm; subst hm
      exact ⟨by intro p hp; simp at hp, List.Pairwise.nil⟩
    | cons x xs => simp [genAux] at hm
  | succ f ih =>
    intro l hR m hm
    cases l with
    | nil =>
      simp [genAux] at hm; subst hm
      exact ⟨by intro p hp; simp at hp, List.Pairwise.nil⟩
    | cons x xs =>
      simp only [genAux, List.mem_flatMap, List.mem_map] at hm
      obtain ⟨s, hs, m', hm', rfl⟩ := hm
      rw [List.pairwise_cons] at hR
      have hsub := (picks_mem_snd_sublist hs).subset
      have hR2 : s.2.Pairwise R := hR.2.sublist (picks_mem_snd_sublist hs)
      have ihm := ih s.2 hR2 m' hm'
      constructor
      · intro p hp
        rcases List.mem_cons.mp hp with h | h
        · subst h; exact hR.1 s.1 (picks_mem_fst hs)
        · exact ihm.1 p h
      · simp only [List.map_cons, List.pairwise_cons]
        constructor
        · intro y hy
          simp only [List.mem_map] at hy
          obtain ⟨p, hp, rfl⟩ := hy
          exact hR.1 p.1 (hsub (genAux_mem_mem f s.2 m' hm' p hp).1)
        · exact ihm.2

/-- Normalization of a pair to its unordered form: the smaller component
first. -/
def normPair (p : ℕ × ℕ) : ℕ × ℕ := if p.1 ≤ p.2 then p else (p.2, p.1)

/-- C1: for every even-length input list of N distinct points,
`generate_matchings` yields exactly (N-1)!! matchings.  (The witness below
instantiates the 8 points 0..7 and records that the count is 105.) -/
theorem matchings_count_eq_doubleFactorial {α : Type} (l : List α)
    (hlen : Even l.length) (_hnodup : l.Nodup) :
    (generate_matchings l).length = doubleFactorial (l.length - 1) := by
  obtain ⟨k, hk⟩ := hlen
  have h2 : l.length = 2 * k := by omega
  rw [generate_matchings_length, h2, matchCount_even]

/-- Witness for C1 at the 8 points 0..7: the hypotheses hold and the count
is (8-1)!! = 105. -/
theorem matchings_count_eq_doubleFactorial_witness :
    Even (List.range 8).length ∧ (List.range 8).Nodup ∧
    (generate_matchings (List.range 8)).length = doubleFactorial ((List.range 8).length - 1) ∧
    doubleFactorial 7 = 105 :=
  ⟨by decide, by decide,
    matchings_count_eq_doubleFactorial (List.range 8) (by decide) (by decide), by decide⟩

/-- C2: every matching yielded by `generate_matchings` on the points 0..7
consists of exactly 4 pairs whose components, taken together, form the
multiset of indices 0..7 — hence the pairs are pairwise disjoint and cover each
index exactly once — and no two yielded matchings coincide as collections
of unordered pairs (each matching's pairs are distinct by the coverage
property, so multiset and set comparison agree). -/
theorem matchings_range8_cover_and_distinct :
    ((generate_matchings (List.range 8)).all fun m =>
        decide (m.length = 4) &&
        decide ((((m.flatMap fun p => [p.1, p.2]) : List ℕ) : Multiset ℕ) =
          ((List.range 8 : List ℕ) : Multiset ℕ))) = true ∧
    ((generate_matchings (List.range 8)).map
        (fun m => ((m.map normPair : List (ℕ × ℕ)) : Multiset (ℕ × ℕ)))).Nodup := by
  decide

/-- C3 counterexample: on the odd-length input [0] the enumerator yields
the empty enumeration and terminates normally.  The source of
`generate_matchings` contains no validation and no raise statement at all
(its embedding is a total function), so no InvalidInputError is possible:
the claim that odd input fails fast with an explicit error is false. -/
theorem odd_input_silently_empty_cex : generate_matchings ([0] : List ℕ) = [] := by
  decide

/-- C3 amended: for every odd-length input, `generate_matchings` silently
yields the empty enumeration — it raises no error of any kind. -/
theorem odd_input_yields_empty_enumeration {α : Type} (l : List α)
    (h : Odd l.length) : generate_matchings l = [] :=
  matchings_of_odd_length l h

/-- Witness for the amended C3 at the odd-length input [3, 1, 4, 1, 5]. -/
theorem odd_input_yields_empty_enumeration_witness :
    Odd ([3, 1, 4, 1, 5] : List ℕ).length ∧
      generate_matchings ([3, 1, 4, 1, 5] : List ℕ) = [] :=
  ⟨by decide, odd_input_yields_empty_enumeration _ (by decide)⟩

/-- C9: for every odd-length input list, `generate_matchings` yields zero
matchings and terminates normally (the embedding is total, so no exception
can occur; the enumeration is silently empty). -/
theorem odd_input_zero_matchings {α : Type} (l : List α) (h : Odd l.length) :
    (generate_matchings l).length = 0 := by
  rw [matchings_of_odd_length l h]
  rfl

/-- Witness for C9 at the odd-length input [0, 1, 2]. -/
theorem odd_input_zero_matchings_witness :
    Odd ([0, 1, 2] : List ℕ).length ∧ (generate_matchings ([0, 1, 2] : List ℕ)).length = 0 :=
  ⟨by decide, odd_input_zero_matchings _ (by decide)⟩

/-- C10: if the input list is strictly ordered by a relation R (for the
input [0,1,...,7], R is the numeric order, so "R a b" is exactly "a occurs
strictly earlier than b in the input"), then in every yielded matching
each pair (a, b) satisfies R a b, and the first components of the pairs
appear in R-increasing order. -/
theorem matching_pairs_respect_input_order {α : Type} {R : α → α → Prop}
    (l : List α) (hR : l.Pairwise R) :
    ∀ m ∈ generate_matchings l, (∀ p ∈ m, R p.1 p.2) ∧ (m.map Prod.fst).Pairwise R :=
  genAux_pairwise l.length l hR

/-- Witness for C10 on the input 0..7 at the concrete yielded matching
[(0,1),(2,3),(4,5),(6,7)]. -/
theorem matching_pairs_respect_input_order_witness :
    (List.range 8).Pairwise (fun a b => a < b) ∧
      [(0, 1), (2, 3), (4, 5), (6, 7)] ∈ generate_matchings (List.range 8) ∧
      ((∀ p ∈ ([(0, 1), (2, 3), (4, 5), (6, 7)] : List (ℕ × ℕ)), p.1 < p.2) ∧
        (([(0, 1), (2, 3), (4, 5), (6, 7)] : List (ℕ × ℕ)).map Prod.fst).Pairwise
          (fun a b => a < b)) :=
  ⟨by decide, by decide,
    matching_pairs_respect_input_order (List.range 8) (by decide)
      [(0, 1), (2, 3), (4, 5), (6, 7)] (by decide)⟩

/-! ## Part II: the tile carver (create_tile_mesh.py)

The matching-dependent numeric fragments of `create_tile_mesh` are
embedded over ℚ (the Python floats only ever perform field operations in
this fragment).  The external geometry engines (shapely, trimesh,
manifold, scad) are out-of-scope collaborators per the spec; they are
abstracted as oracle functions exactly at their call sites. -/

/-- The endpoint layout of `create_tile_mesh` (with q = tile_size / 4):

    q = tile_size / 4.0
    endpoints2d = [
        (q, tile_size), (3 * q, tile_size),
        (tile_size, 3 * q), (tile_size, q),
        (3 * q, 0), (q, 0),
        (0, q), (0, 3 * q)]
-/
def endpoints2d (tile_size : ℚ) : List (ℚ × ℚ) :=
  [(tile_size / 4, tile_size), (3 * (tile_size / 4), tile_size),
   (tile_size, 3 * (tile_size / 4)), (tile_size, tile_size / 4),
   (3 * (tile_size / 4), 0), (tile_size / 4, 0),
   (0, tile_size / 4), (0, 3 * (tile_size / 4))]

/-- The tile's geometric center: `np.array([tile_size / 2, tile_size / 2])`. -/
def tileCenter (tile_size : ℚ) : ℚ × ℚ := (tile_size / 2, tile_size / 2)

/-- One sample of the channel curve:
`(1 - t) ** 2 * p0 + 2 * (1 - t) * t * center + t ** 2 * p1`. -/
def bezierPoint (p0 c p1 : ℚ × ℚ) (t : ℚ) : ℚ × ℚ :=
  ((1 - t) ^ 2 * p0.1 + 2 * (1 - t) * t * c.1 + t ^ 2 * p1.1,
   (1 - t) ^ 2 * p0.2 + 2 * (1 - t) * t * c.2 + t ^ 2 * p1.2)

/-- The parameter samples `np.linspace(0, 1, steps)`: for `steps ≥ 2` the
k-th value is k/(steps-1); for `steps = 1` numpy returns the single value
0, which the formula also yields because division by zero is zero in ℚ. -/
def linspace01 (steps : Nat) : List ℚ :=
  (List.range steps).map (fun k : Nat => (k : ℚ) / ((steps : ℚ) - 1))

/-- The sampled channel curve for one pair: the quadratic Bezier through
the two endpoints with the tile center as control point. -/
def bezierSamples (p0 c p1 : ℚ × ℚ) (steps : Nat) : List (ℚ × ℚ) :=
  (linspace01 steps).map (bezierPoint p0 c p1)

/-- Failure of the Python list indexing `endpoints2d[i]`. -/
inductive TileError where
  | indexError : TileError

/-- Embedding of the lookup `endpoints2d[i]`: a Python IndexError when i
is out of range (the matching indices produced upstream are
non-negative). -/
def lookupEndpoint (tile_size : ℚ) (i : Nat) : Except TileError (ℚ × ℚ) :=
  match (endpoints2d tile_size).get? i with
  | some p => Except.ok p
  | none => Except.error TileError.indexError

/-- The body of the groove loop for one pair `(i, j)` of the matching:
look up both endpoints, then sample the Bezier curve.  `p0` is looked up
before `p1`, as in the source. -/
def grooveCurve (tile_size : ℚ) (steps : Nat) (pr : Nat × Nat) :
    Except TileError (List (ℚ × ℚ)) :=
  match lookupEndpoint tile_size pr.1 with
  | Except.error e => Except.error e
  | Except.ok p0 =>
    match lookupEndpoint tile_size pr.2 with
    | Except.error e => Except.error e
    | Except.ok p1 => Except.ok (bezierSamples p0 (tileCenter tile_size) p1 steps)

/-- The groove loop `for i, j in matching` of `create_tile_mesh`: build
the sampled curve of every pair in order, stopping at the first index
error.  This is the first statement of `create_tile_mesh` that reads the
matching: no validation precedes it. -/
def grooveCurves (tile_size : ℚ) (steps : Nat) :
    List (Nat × Nat) → Except TileError (List (List (ℚ × ℚ)))
  | [] => Except.ok []
  | pr :: rest =>
    match grooveCurve tile_size steps pr with
    | Except.error e => Except.error e
    | Except.ok c =>
      match grooveCurves tile_size steps rest with
      | Except.error e => Except.error e
      | Except.ok cs => Except.ok (c :: cs)

theorem lookupEndpoint_isOk (tile_size : ℚ) (i : Nat) (hi : i < 8) :
    ∃ p, lookupEndpoint tile_size i = Except.ok p := by
  cases h : (endpoints2d tile_size).get? i with
  | none =>
    have hlen : (endpoints2d tile_size).length = 8 := rfl
    have := List.get?_eq_none.mp h
    omega
  | some p =>
    refine ⟨p, ?_⟩
    unfold lookupEndpoint
    rw [h]

theorem grooveCurve_isOk (tile_size : ℚ) (steps : Nat) (pr : Nat × Nat)
    (h1 : pr.1 < 8) (h2 : pr.2 < 8) :
    ∃ c, grooveCurve tile_size steps pr = Except.ok c := by
  obtain ⟨p0, hp0⟩ := lookupEndpoint_isOk tile_size pr.1 h1
  obtain ⟨p1, hp1⟩ := lookupEndpoint_isOk tile_size pr.2 h2
  refine ⟨bezierSamples p0 (tileCenter tile_size) p1 steps, ?_⟩
  unfold grooveCurve
  rw [hp0, hp1]

theorem grooveCurves_isOk (tile_size : ℚ) (steps : Nat) :
    ∀ matching : List (Nat × Nat), (∀ p ∈ matching, p.1 < 8 ∧ p.2 < 8) →
      (grooveCurves tile_size steps matching).isOk = true := by
  intro matching
  induction matching with
  | nil => intro _; rfl
  | cons pr rest ih =>
    intro h
    have hpr := h pr (List.mem_cons_self pr rest)
    obtain ⟨c, hc⟩ := grooveCurve_isOk tile_size steps pr hpr.1 hpr.2
    have hrest := ih (fun p hp => h p (List.mem_cons_of_mem pr hp))
    simp only [grooveCurves, hc]
    cases hr : grooveCurves tile_size steps rest with
    | error e => rw [hr] at hrest; simp [Except.isOk, Except.toBool] at hrest
    | ok cs => rfl

/-- C4 counterexample: the malformed matching [(0,1),(1,2),(3,4),(5,6)]
with a repeated index is not rejected: `create_tile_mesh` contains no
matching validation, and with the default parameters (tile_size 100,
bezier_steps 64) the groove construction — the first geometry work and
the first code that reads the matching — runs to completion on it,
producing the four sampled curves.  No InvalidInputError exists anywhere
in the source. -/
theorem malformed_matching_not_rejected_cex :
    (grooveCurves 100 64 [(0, 1), (1, 2), (3, 4), (5, 6)]).isOk = true :=
  grooveCurves_isOk 100 64 [(0, 1), (1, 2), (3, 4), (5, 6)] (by decide)

/-- C4 amended: the tile carver performs no matching validation: every
matching whose indices are in range 0..7 — including matchings with a
wrong pair count or duplicated indices — proceeds into geometry
construction with no error; only an out-of-range index fails, and then
with an index lookup error rather than a pre-geometry InvalidInputError. -/
theorem no_matching_validation (tile_size : ℚ) (steps : Nat)
    (matching : List (Nat × Nat)) (h : ∀ p ∈ matching, p.1 < 8 ∧ p.2 < 8) :
    (grooveCurves tile_size steps matching).isOk = true :=
  grooveCurves_isOk tile_size steps matching h

/-- Witness for the amended C4: a two-pair (wrong pair count) matching
with in-range indices is carried into geometry construction. -/
theorem no_matching_validation_witness :
    (∀ p ∈ ([(0, 7), (2, 5)] : List (Nat × Nat)), p.1 < 8 ∧ p.2 < 8) ∧
      (grooveCurves 100 4 [(0, 7), (2, 5)]).isOk = true :=
  ⟨by decide, no_matching_validation 100 4 [(0, 7), (2, 5)] (by decide)⟩

/-- The fatal error raised when both boolean engines fail (the
RuntimeError of lines 188-190 of create_tile_mesh.py). -/
inductive BooleanCarveError where
  | bothFailed : BooleanCarveError

/-- Embedding of the carve step of `create_tile_mesh` (lines 180-192),
with the boolean engine abstracted as an oracle `run engine solids`
returning `none` when the engine raises:

    if cutters:
        try:
            carved = difference([base] + cutters, engine="manifold")
        except Exception as e:
            try:
                carved = difference([base] + cutters, engine="scad")
            except Exception as e2:
                raise RuntimeError(...)
    else:
        carved = base
-/
def carveStep {S : Type} (run : String → List S → Option S) (base : S)
    (cutters : List S) : Except BooleanCarveError S :=
  if cutters.isEmpty then Except.ok base
  else
    match run "manifold" (base :: cutters) with
    | some carved => Except.ok carved
    | none =>
      match run "scad" (base :: cutters) with
      | some carved => Except.ok carved
      | none => Except.error BooleanCarveError.bothFailed

/-- C5: the solid carve first attempts the boolean difference with the
primary engine ("manifold"); on primary failure it retries the very same
operation — the same argument list `base :: cutters` — with the fallback
engine ("scad"); and if both engines fail the carve fails with an error,
returning no solid at all (the result is an `Except.error`, which carries
no partially-carved solid). -/
theorem carve_primary_then_fallback {S : Type} (run : String → List S → Option S)
    (base : S) (cutters : List S) (hc : cutters ≠ []) :
    (∀ r, run "manifold" (base :: cutters) = some r →
        carveStep run base cutters = Except.ok r) ∧
    (∀ r, run "manifold" (base :: cutters) = none →
        run "scad" (base :: cutters) = some r →
        carveStep run base cutters = Except.ok r) ∧
    (run "manifold" (base :: cutters) = none →
        run "scad" (base :: cutters) = none →
        carveStep run base cutters = Except.error BooleanCarveError.bothFailed) := by
  have hne : cutters.isEmpty = false := by
    cases cutters with
    | nil => exact absurd rfl hc
    | cons a l => rfl
  refine ⟨?_, ?_, ?_⟩
  · intro r h
    simp [carveStep, hne, h]
  · intro r h1 h2
    simp [carveStep, hne, h1, h2]
  · intro h1 h2
    simp [carveStep, hne, h1, h2]

/-- An engine oracle on which every boolean operation fails, used to
witness the both-engines-fail branch of C5. -/
def runAllFail : String → List Nat → Option Nat := fun _ _ => none

/-- Witness for C5: with one cutter and an oracle on which both engines
fail, the carve step returns the fatal error and no solid. -/
theorem carve_primary_then_fallback_witness :
    ([1] : List Nat) ≠ [] ∧
    ((∀ r, runAllFail "manifold" (0 :: [1]) = some r →
        carveStep runAllFail 0 [1] = Except.ok r) ∧
     (∀ r, runAllFail "manifold" (0 :: [1]) = none →
        runAllFail "scad" (0 :: [1]) = some r →
        carveStep runAllFail 0 [1] = Except.ok r) ∧
     (runAllFail "manifold" (0 :: [1]) = none →
        runAllFail "scad" (0 :: [1]) = none →
        carveStep runAllFail 0 [1] = Except.error BooleanCarveError.bothFailed)) :=
  ⟨by decide, carve_primary_then_fallback runAllFail 0 [1] (by decide)⟩

/-- The fatal error raised when fewer than 8 endpoint dots were created
(the RuntimeError of lines 152-155 of create_tile_mesh.py). -/
inductive MarkerError where
  | tooFewDots : MarkerError

/-- Embedding of the endpoint-dot phase of `create_tile_mesh` (lines
114-155).  The loop runs over `range(8)` — one iteration per Point Index,
independent of the matching — and each iteration appends at most one
cutting solid; the inner cylinder/intersection/fallback logic is external
geometry, abstracted as the oracle `dotResult i` (`none` when iteration i
appends nothing).  After the loop:

    if len(endpoint_dots) < 8:
        raise RuntimeError("Failed to create all endpoint dots! ...")
-/
def markersPhase {S : Type} (dotResult : Nat → Option S) : Except MarkerError (List S) :=
  let endpoint_dots := (List.range 8).filterMap dotResult
  if endpoint_dots.length < 8 then Except.error MarkerError.tooFewDots
  else Except.ok endpoint_dots

theorem length_filterMap_eq_iff {α β : Type} (f : α → Option β) :
    ∀ l : List α, ((l.filterMap f).length = l.length ↔ ∀ a ∈ l, (f a).isSome = true) := by
  intro l
  induction l with
  | nil => simp
  | cons a l ih =>
    cases hfa : f a with
    | none =>
      simp only [List.filterMap_cons, hfa, List.length_cons]
      constructor
      · intro h
        exfalso
        have := List.length_filterMap_le f l
        omega
      · intro h
        have h1 := h a (List.mem_cons_self a l)
        rw [hfa] at h1
        simp at h1
    | some b =>
      simp only [List.filterMap_cons, hfa, List.length_cons]
      constructor
      · intro h x hx
        rcases List.mem_cons.mp hx with h2 | h2
        · rw [h2, hfa]; rfl
        · exact (ih.mp (by omega)) x h2
      · intro h
        have := ih.mpr (fun x hx => h x (List.mem_cons_of_mem a hx))
        omega

/-- C6: the dot loop attempts exactly 8 endpoint marker solids, one per
Point Index and independent of the matching; if any of the 8 fails to be
created the phase raises the fatal construction error instead of
accepting a partial result, and whenever the phase succeeds it returns
exactly 8 marker solids, one per index. -/
theorem markers_all_eight_or_fatal {S : Type} (dotResult : Nat → Option S) :
    ((∃ i, i < 8 ∧ dotResult i = none) →
      markersPhase dotResult = Except.error MarkerError.tooFewDots) ∧
    (∀ dots, markersPhase dotResult = Except.ok dots →
      dots.length = 8 ∧ ∀ i, i < 8 → (dotResult i).isSome = true) := by
  have hle : ((List.range 8).filterMap dotResult).length ≤ 8 := by
    have := List.length_filterMap_le dotResult (List.range 8)
    simpa using this
  constructor
  · rintro ⟨i, hi, hnone⟩
    have hne : ((List.range 8).filterMap dotResult).length ≠ 8 := by
      intro he
      have hall := (length_filterMap_eq_iff dotResult (List.range 8)).mp (by simpa using he)
      have h1 := hall i (by simpa using hi)
      rw [hnone] at h1
      simp at h1
    have hlt : ((List.range 8).filterMap dotResult).length < 8 := by omega
    simp [markersPhase, hlt]
  · intro dots hdots
    by_cases hlt : ((List.range 8).filterMap dotResult).length < 8
    · simp [markersPhase, hlt] at hdots
    · simp [markersPhase, hlt] at hdots
      have heq : ((List.range 8).filterMap dotResult).length = 8 := by omega
      have hall := (length_filterMap_eq_iff dotResult (List.range 8)).mp (by simpa using heq)
      subst hdots
      exact ⟨heq, fun i hi => hall i (by simpa using hi)⟩

/-- A dot oracle on which endpoint 3 fails, used to witness the
fewer-than-8 branch of C6. -/
def dotsOneMissing : Nat → Option Nat := fun i => if i = 3 then none else some 0

/-- Witness for C6: when the dot for endpoint 3 fails to build, the
marker phase raises the fatal error. -/
theorem markers_all_eight_or_fatal_witness :
    markersPhase dotsOneMissing = Except.error MarkerError.tooFewDots :=
  (markers_all_eight_or_fatal dotsOneMissing).1 ⟨3, by decide, rfl⟩

theorem bezierPoint_zero (p0 c p1 : ℚ × ℚ) : bezierPoint p0 c p1 0 = p0 := by
  unfold bezierPoint
  norm_num

theorem bezierPoint_one (p0 c p1 : ℚ × ℚ) : bezierPoint p0 c p1 1 = p1 := by
  unfold bezierPoint
  norm_num

theorem bezierSamples_get (p0 c p1 : ℚ × ℚ) (steps k : Nat) (hk : k < steps) :
    (bezierSamples p0 c p1 steps).get? k =
      some (bezierPoint p0 c p1 ((k : ℚ) / ((steps : ℚ) - 1))) := by
  unfold bezierSamples linspace01
  rw [List.get?_map, List.get?_map, List.get?_range hk]
  rfl

theorem bezierSamples_length (p0 c p1 : ℚ × ℚ) (steps : Nat) :
    (bezierSamples p0 c p1 steps).length = steps := by
  unfold bezierSamples linspace01
  rw [List.length_map, List.length_map, List.length_range]

theorem grooveCurve_eq (tile_size : ℚ) (steps : Nat) (i j : Nat) (p0 p1 : ℚ × ℚ)
    (h0 : (endpoints2d tile_size).get? i = some p0)
    (h1 : (endpoints2d tile_size).get? j = some p1) :
    grooveCurve tile_size steps (i, j) =
      Except.ok (bezierSamples p0 (tileCenter tile_size) p1 steps) := by
  unfold grooveCurve lookupEndpoint
  rw [h0, h1]

/-- C7 counterexample: the channel curve for the pair (0, 1) with the
default tile size 100 — the quadratic Bezier from endpoint 0 at (25, 100)
to endpoint 1 at (75, 100) with the tile center (50, 50) as control point
— does not pass through the tile center for any parameter value: a
quadratic Bezier does not in general pass through its control point (its
y-coordinate here is 100·(1 - t + t²) ≥ 75 for all t). -/
theorem bezier_misses_center_cex :
    ¬ ∃ t : ℚ, bezierPoint ((endpoints2d 100).getD 0 (0, 0)) (tileCenter 100)
        ((endpoints2d 100).getD 1 (0, 0)) t = tileCenter 100 := by
  rintro ⟨t, ht⟩
  have e0 : (endpoints2d 100).getD 0 (0, 0) = (100 / 4, 100) := rfl
  have e1 : (endpoints2d 100).getD 1 (0, 0) = (3 * (100 / 4), 100) := rfl
  rw [e0, e1] at ht
  have h2 := congrArg Prod.snd ht
  simp only [bezierPoint, tileCenter] at h2
  norm_num at h2
  nlinarith [sq_nonneg (t - 1 / 2)]

/-- C7 amended: for each pair (i, j) of the matching, the channel curve is
the quadratic Bezier from endpoint i to endpoint j whose control point is
the tile's geometric center (the curve bends toward the center but need
not pass through it), sampled at the configured number of steps: the
sample list has exactly `steps` entries, the k-th being the Bezier value
at t = k/(steps-1); its first sample equals endpoint i's layout
coordinate and its last sample equals endpoint j's layout coordinate. -/
theorem bezier_endpoints_and_control (tile_size : ℚ) (steps i j : Nat)
    (p0 p1 : ℚ × ℚ) (hsteps : 2 ≤ steps)
    (h0 : (endpoints2d tile_size).get? i = some p0)
    (h1 : (endpoints2d tile_size).get? j = some p1) :
    ∃ curve, grooveCurve tile_size steps (i, j) = Except.ok curve ∧
      curve.length = steps ∧
      (∀ k, k < steps → curve.get? k =
        some (bezierPoint p0 (tileCenter tile_size) p1 ((k : ℚ) / ((steps : ℚ) - 1)))) ∧
      curve.get? 0 = some p0 ∧
      curve.get? (steps - 1) = some p1 := by
  refine ⟨bezierSamples p0 (tileCenter tile_size) p1 steps,
    grooveCurve_eq tile_size steps i j p0 p1 h0 h1, ?_, ?_, ?_, ?_⟩
  · exact bezierSamples_length p0 (tileCenter tile_size) p1 steps
  · intro k hk
    exact bezierSamples_get p0 (tileCenter tile_size) p1 steps k hk
  · rw [bezierSamples_get p0 (tileCenter tile_size) p1 steps 0 (by omega)]
    norm_num [bezierPoint_zero]
  · rw [bezierSamples_get p0 (tileCenter tile_size) p1 steps (steps - 1) (by omega)]
    have hcast : ((steps - 1 : Nat) : ℚ) = (steps : ℚ) - 1 := by
      have h1le : 1 ≤ steps := by omega
      push_cast [h1le]
      ring
    have hne : ((steps : ℚ) - 1) ≠ 0 := by
      have h2 : (2 : ℚ) ≤ (steps : ℚ) := by exact_mod_cast hsteps
      intro h
      rw [sub_eq_zero] at h
      rw [h] at h2
      norm_num at h2
    rw [hcast, div_self hne, bezierPoint_one]

/-- Witness for the amended C7 at tile size 100, pair (0, 1), 2 steps. -/
theorem bezier_endpoints_and_control_witness :
    2 ≤ 2 ∧
    (endpoints2d 100).get? 0 = some (100 / 4, 100) ∧
    (endpoints2d 100).get? 1 = some (3 * (100 / 4), 100) ∧
    (∃ curve, grooveCurve 100 2 (0, 1) = Except.ok curve ∧
      curve.length = 2 ∧
      (∀ k, k < 2 → curve.get? k =
        some (bezierPoint (100 / 4, 100) (tileCenter 100) (3 * (100 / 4), 100)
          ((k : ℚ) / ((2 : ℚ) - 1)))) ∧
      curve.get? 0 = some ((100 / 4 : ℚ), (100 : ℚ)) ∧
      curve.get? (2 - 1) = some ((3 * (100 / 4) : ℚ), (100 : ℚ))) :=
  ⟨by omega, rfl, rfl,
    bezier_endpoints_and_control 100 2 0 1 (100 / 4, 100) (3 * (100 / 4), 100)
      (by omega) rfl rfl⟩

/-- A point lies on the tile boundary at the 1/4 or 3/4 position along
one of the four edges: on the top or bottom edge with x at s/4 or 3s/4,
or on the right or left edge with y at s/4 or 3s/4. -/
def onTileEdgeQuarter (s : ℚ) (p : ℚ × ℚ) : Prop :=
  ((p.2 = s ∨ p.2 = 0) ∧ (p.1 = s / 4 ∨ p.1 = 3 * (s / 4))) ∨
  ((p.1 = s ∨ p.1 = 0) ∧ (p.2 = s / 4 ∨ p.2 = 3 * (s / 4)))

/-- One term of the shoelace sum for the edge from p to q. -/
def shoelaceTerm (p q : ℚ × ℚ) : ℚ := p.1 * q.2 - q.1 * p.2

/-- Shoelace sum of the closed polygon through the given vertices, with
`p0` the vertex the polygon closes back to. -/
def shoelaceAux (p0 : ℚ × ℚ) : List (ℚ × ℚ) → ℚ
  | [] => 0
  | [p] => shoelaceTerm p p0
  | p :: q :: rest => shoelaceTerm p q + shoelaceAux p0 (q :: rest)

/-- Twice the signed area of the closed polygon through the given
vertices; positive for counterclockwise order, negative for clockwise
order (y axis pointing up). -/
def shoelace : List (ℚ × ℚ) → ℚ
  | [] => 0
  | p :: rest => shoelaceAux p (p :: rest)

/-- C8: the endpoint layout is a pure function of the tile edge length
returning exactly 8 boundary coordinates, each at the 1/4 or 3/4 position
along one of the four tile edges, exactly two on each edge (top y = s,
right x = s, bottom y = 0, left x = 0), and listed in a fixed consistent
rotational order: the traversal is clockwise, witnessed by the strictly
negative shoelace signed area. -/
theorem endpoint_layout_spec (s : ℚ) (hs : 0 < s) :
    (endpoints2d s).length = 8 ∧
    (∀ p ∈ endpoints2d s, onTileEdgeQuarter s p) ∧
    ((endpoints2d s).countP (fun p => decide (p.2 = s)) = 2 ∧
     (endpoints2d s).countP (fun p => decide (p.1 = s)) = 2 ∧
     (endpoints2d s).countP (fun p => decide (p.2 = 0)) = 2 ∧
     (endpoints2d s).countP (fun p => decide (p.1 = 0)) = 2) ∧
    shoelace (endpoints2d s) < 0 := by
  have h1 : ¬(3 * (s / 4) = s) := by intro h; linarith
  have h2 : ¬(s / 4 = s) := by intro h; linarith
  have h3 : ¬((0 : ℚ) = s) := by intro h; linarith
  have h4 : ¬(s / 4 = 0) := by intro h; linarith
  have h5 : ¬(3 * (s / 4) = 0) := by intro h; linarith
  have h6 : ¬(s = 0) := by intro h; linarith
  refine ⟨rfl, ?_, ⟨?_, ?_, ?_, ?_⟩, ?_⟩
  · intro p hp
    fin_cases hp <;> simp [onTileEdgeQuarter]
  · simp [endpoints2d, List.countP_cons, h1, h2, h3, h6]
  · simp [endpoints2d, List.countP_cons, h1, h2, h3, h6]
  · simp [endpoints2d, List.countP_cons, h1, h2, h4, h5, h6]
  · simp [endpoints2d, List.countP_cons, h4, h5, h6]
  · have hsl : shoelace (endpoints2d s) = -(7 / 4) * s ^ 2 := by
      simp only [shoelace, shoelaceAux, shoelaceTerm, endpoints2d]
      ring
    rw [hsl]
    nlinarith [mul_pos hs hs]

/-- Witness for C8 at tile edge length 4. -/
theorem endpoint_layout_spec_witness :
    (0 : ℚ) < 4 ∧
    ((endpoints2d 4).length = 8 ∧
     (∀ p ∈ endpoints2d 4, onTileEdgeQuarter 4 p) ∧
     ((endpoints2d 4).countP (fun p => decide (p.2 = 4)) = 2 ∧
      (endpoints2d 4).countP (fun p => decide (p.1 = 4)) = 2 ∧
      (endpoints2d 4).countP (fun p => decide (p.2 = 0)) = 2 ∧
      (endpoints2d 4).countP (fun p => decide (p.1 = 0)) = 2) ∧
     shoelace (endpoints2d 4) < 0) :=
  ⟨by norm_num, endpoint_layout_spec 4 (by norm_num)⟩

end PathTiles
